import Mathlib

/-!
Verification development for a training-KPI ETL pipeline.

The pipeline reads three tables (employee roster, training log, department
goals), left-joins the log with the roster on the employee identifier,
partitions the joined records by reference year and month against a fixed
reference date (2025-10-28), sums duration hours per department for each
partition, outer-merges the two per-department sums with zero fill,
left-merges the result onto the goals table (goals driving) with zero fill,
computes the achievement ratio YTD hours / target, and stamps a report-month
label.  Two scripts implement the same transformation: a batch script
(`process_report.py`, which additionally writes a spreadsheet and appends to
a history table) and a dashboard script (`dashboard.py`, function
`run_etl_pipeline`).

Numbers are modelled as rationals.  The only place the Python floats leave
the rational fragment is the division by a zero target, which produces a
non-finite float (inf or NaN); the embedding models the ratio column as
`Option ℚ` with `none` standing for that non-finite value.
-/

/-- A calendar date as parsed from the `Course_Date` column. -/
structure Date where
  year : Nat
  month : Nat
  day : Nat
deriving DecidableEq, Repr

/-- Lexicographic order on dates, used only to state the spec-side
year-to-date window (start of year through reference date). -/
def Date.ble (a b : Date) : Bool :=
  Nat.blt a.year b.year ||
    (a.year == b.year &&
      (Nat.blt a.month b.month || (a.month == b.month && Nat.ble a.day b.day)))

/-- A row of `Employee_Roster.xlsx`: employee identifier and department. -/
structure RosterRow where
  employeeId : String
  department : String
deriving DecidableEq, Repr

/-- A row of `Training_Log_2025.xlsx`: employee identifier, course date
(already parsed to a date), duration in hours. -/
structure LogRow where
  employeeId : String
  courseDate : Date
  durationHours : ℚ
deriving DecidableEq, Repr

/-- A row of `Department_Goals.xlsx`: department and YTD man-hours target. -/
structure GoalRow where
  department : String
  targetManHoursYTD : ℚ
deriving DecidableEq, Repr

/-- A row of the merged log/roster frame.  `department = none` models the
NaN produced by the left join for an employee with no roster match. -/
structure MergedRow where
  employeeId : String
  courseDate : Date
  durationHours : ℚ
  department : Option String
deriving DecidableEq, Repr

/-- A row of the intermediate `df_kpi_summary` frame. -/
structure SummaryRow where
  department : String
  ytdHours : ℚ
  mtdHours : ℚ
deriving DecidableEq, Repr

/-- A row of the final `df_kpi_report` frame.  The achievement column is
`none` exactly when the float division returned a non-finite value. -/
structure ReportRow where
  department : String
  targetManHoursYTD : ℚ
  ytdHours : ℚ
  mtdHours : ℚ
  ytdAchievementPercent : Option ℚ
  reportMonth : String
deriving DecidableEq, Repr

/-- The three input tables of one run. -/
structure Inputs where
  roster : List RosterRow
  log : List LogRow
  goals : List GoalRow
deriving DecidableEq, Repr

namespace ProcessReport

/-- `TODAY = pd.to_datetime('2025-10-28')` in `process_report.py`. -/
def TODAY : Date := ⟨2025, 10, 28⟩

/-- Two-digit month rendering used by `strftime('%Y-%m')`. -/
def monthStr (m : Nat) : String :=
  if m < 10 then "0" ++ toString m else toString m

/-- `TODAY.strftime('%Y-%m')`. -/
def reportMonthStr (d : Date) : String :=
  toString d.year ++ "-" ++ monthStr d.month

/-- The roster rows matching an employee identifier (the key set the left
join matches a log row against). -/
def rosterMatches (roster : List RosterRow) (id : String) : List RosterRow :=
  roster.filter (fun e => e.employeeId == id)

/-- One log row's contribution to `pd.merge(df_log, roster, how='left')`:
one output row per matching roster row, or a single row with a null
department when no roster row matches. -/
def mergeRow (r : LogRow) (ms : List RosterRow) : List MergedRow :=
  match ms with
  | [] => [{ employeeId := r.employeeId, courseDate := r.courseDate,
             durationHours := r.durationHours, department := none }]
  | e :: es => (e :: es).map fun m =>
      { employeeId := r.employeeId, courseDate := r.courseDate,
        durationHours := r.durationHours, department := some m.department }

/-- `df_merged`: the left join of the log with the roster on Employee_ID. -/
def mergeLogRoster (log : List LogRow) (roster : List RosterRow) : List MergedRow :=
  log.flatMap fun r => mergeRow r (rosterMatches roster r.employeeId)

/-- `is_this_year`: course-date year equals the reference year. -/
def isThisYear (r : MergedRow) : Bool :=
  r.courseDate.year == TODAY.year

/-- `is_this_month`: course-date month equals the reference month. -/
def isThisMonth (r : MergedRow) : Bool :=
  r.courseDate.month == TODAY.month

/-- `df_ytd_data = df_merged[is_this_year]`. -/
def ytdData (i : Inputs) : List MergedRow :=
  (mergeLogRoster i.log i.roster).filter isThisYear

/-- `df_mtd_data = df_merged[is_this_year & is_this_month]`. -/
def mtdData (i : Inputs) : List MergedRow :=
  (mergeLogRoster i.log i.roster).filter (fun r => isThisYear r && isThisMonth r)

/-- `groupby('Department')['Duration_Hours'].sum()` evaluated at one
department key. -/
def sumHoursFor (rows : List MergedRow) (d : String) : ℚ :=
  ((rows.filter (fun r => r.department == some d)).map (fun r => r.durationHours)).sum

/-- The group keys of `groupby('Department')`: departments occurring in the
rows.  Rows with a null department are dropped (pandas drops NaN keys). -/
def groupDepts (rows : List MergedRow) : List String :=
  (rows.filterMap (fun r => r.department)).dedup

/-- `df_kpi_summary`: outer merge of the YTD and MTD per-department sums,
missing side filled with 0 (`fillna(0)`); a department absent from a
partition has an empty group there, so its filled value equals the empty
sum. -/
def kpiSummary (i : Inputs) : List SummaryRow :=
  ((groupDepts (ytdData i)) ++ (groupDepts (mtdData i))).dedup.map fun d =>
    { department := d, ytdHours := sumHoursFor (ytdData i) d,
      mtdHours := sumHoursFor (mtdData i) d }

/-- `YTD_Hours / Target_Man_Hours_YTD`: `none` models the non-finite float
produced by a zero divisor; otherwise the exact quotient. -/
def achievementRatio (ytd target : ℚ) : Option ℚ :=
  if target = 0 then none else some (ytd / target)

/-- One goal row's contribution to `pd.merge(df_goals, summary, how='left')`
followed by `fillna(0)` and the ratio computation: one output row per
matching summary row, or a single zero-filled row when none matches. -/
def leftMergeRow (g : GoalRow) (ms : List SummaryRow) (month : String) : List ReportRow :=
  match ms with
  | [] => [{ department := g.department, targetManHoursYTD := g.targetManHoursYTD,
             ytdHours := 0, mtdHours := 0,
             ytdAchievementPercent := achievementRatio 0 g.targetManHoursYTD,
             reportMonth := month }]
  | s :: ss => (s :: ss).map fun s' =>
      { department := g.department, targetManHoursYTD := g.targetManHoursYTD,
        ytdHours := s'.ytdHours, mtdHours := s'.mtdHours,
        ytdAchievementPercent := achievementRatio s'.ytdHours g.targetManHoursYTD,
        reportMonth := month }

/-- `df_kpi_report`: goals left-merged with the summary, zero-filled, with
the achievement ratio and report-month columns attached. -/
def kpiReport (goals : List GoalRow) (summary : List SummaryRow) (month : String) :
    List ReportRow :=
  goals.flatMap fun g =>
    leftMergeRow g (summary.filter (fun s => s.department == g.department)) month

/-- The whole transform of `process_report.py` (lines 42-86), from the three
input tables to the rows of `df_kpi_report`. -/
def processReport (i : Inputs) : List ReportRow :=
  kpiReport i.goals (kpiSummary i) (reportMonthStr TODAY)

/-- The input directory as `main` sees it: each table is present and
readable (`some rows`) or absent/unreadable (`none`, the case raising
`FileNotFoundError` or another read exception in `pd.read_excel`). -/
structure FileSystem where
  roster : Option (List RosterRow)
  log : Option (List LogRow)
  goals : Option (List GoalRow)
deriving DecidableEq, Repr

/-- The externally visible outcome of one batch run of `main`: process exit
code, whether an error message was printed, the spreadsheet contents if one
was written, and the rows appended to the `kpi_history` table. -/
structure RunOutcome where
  exitCode : Nat
  errorReported : Bool
  excelWritten : Option (List ReportRow)
  historyAppended : List ReportRow
deriving DecidableEq, Repr

/-- `main` of `process_report.py`: reads the three files inside a single
try/except; any read failure skips the transform and both load steps,
prints an error and calls `sys.exit(1)`.  A successful run writes the
spreadsheet and appends the report rows to the history table and exits 0. -/
def mainRun (fs : FileSystem) : RunOutcome :=
  match fs.roster, fs.log, fs.goals with
  | some roster, some log, some goals =>
      let report := processReport ⟨roster, log, goals⟩
      { exitCode := 0, errorReported := false,
        excelWritten := some report, historyAppended := report }
  | _, _, _ =>
      { exitCode := 1, errorReported := true,
        excelWritten := none, historyAppended := [] }

/-- One batch run against a pre-existing history table: returns the computed
report rows and the history after the append-only load step. -/
def runBatchOnce (i : Inputs) (history : List ReportRow) :
    List ReportRow × List ReportRow :=
  let report := processReport i
  (report, history ++ report)

end ProcessReport

namespace Dashboard

/-- `TODAY = pd.to_datetime('2025-10-28')` in `dashboard.py`. -/
def TODAY : Date := ⟨2025, 10, 28⟩

/-- Two-digit month rendering used by `strftime('%Y-%m')`. -/
def monthStr (m : Nat) : String :=
  if m < 10 then "0" ++ toString m else toString m

/-- `TODAY.strftime('%Y-%m')` in `dashboard.py`. -/
def reportMonthStr (d : Date) : String :=
  toString d.year ++ "-" ++ monthStr d.month

/-- Roster rows matching an employee identifier (`dashboard.py` join key). -/
def rosterMatches (roster : List RosterRow) (id : String) : List RosterRow :=
  roster.filter (fun e => e.employeeId == id)

/-- One log row's contribution to the dashboard's left merge. -/
def mergeRow (r : LogRow) (ms : List RosterRow) : List MergedRow :=
  match ms with
  | [] => [{ employeeId := r.employeeId, courseDate := r.courseDate,
             durationHours := r.durationHours, department := none }]
  | e :: es => (e :: es).map fun m =>
      { employeeId := r.employeeId, courseDate := r.courseDate,
        durationHours := r.durationHours, department := some m.department }

/-- `df_merged` in `dashboard.py`. -/
def mergeLogRoster (log : List LogRow) (roster : List RosterRow) : List MergedRow :=
  log.flatMap fun r => mergeRow r (rosterMatches roster r.employeeId)

/-- `is_this_year` in `dashboard.py`. -/
def isThisYear (r : MergedRow) : Bool :=
  r.courseDate.year == TODAY.year

/-- `is_this_month` in `dashboard.py`. -/
def isThisMonth (r : MergedRow) : Bool :=
  r.courseDate.month == TODAY.month

/-- `df_ytd_data` in `dashboard.py`. -/
def ytdData (i : Inputs) : List MergedRow :=
  (mergeLogRoster i.log i.roster).filter isThisYear

/-- `df_mtd_data` in `dashboard.py`. -/
def mtdData (i : Inputs) : List MergedRow :=
  (mergeLogRoster i.log i.roster).filter (fun r => isThisYear r && isThisMonth r)

/-- Per-department summed duration hours in `dashboard.py`. -/
def sumHoursFor (rows : List MergedRow) (d : String) : ℚ :=
  ((rows.filter (fun r => r.department == some d)).map (fun r => r.durationHours)).sum

/-- Group keys of the dashboard's `groupby('Department')`. -/
def groupDepts (rows : List MergedRow) : List String :=
  (rows.filterMap (fun r => r.department)).dedup

/-- `df_kpi_summary` in `dashboard.py`. -/
def kpiSummary (i : Inputs) : List SummaryRow :=
  ((groupDepts (ytdData i)) ++ (groupDepts (mtdData i))).dedup.map fun d =>
    { department := d, ytdHours := sumHoursFor (ytdData i) d,
      mtdHours := sumHoursFor (mtdData i) d }

/-- The dashboard's achievement-ratio column entry. -/
def achievementRatio (ytd target : ℚ) : Option ℚ :=
  if target = 0 then none else some (ytd / target)

/-- One goal row's contribution to the dashboard's final left merge. -/
def leftMergeRow (g : GoalRow) (ms : List SummaryRow) (month : String) : List ReportRow :=
  match ms with
  | [] => [{ department := g.department, targetManHoursYTD := g.targetManHoursYTD,
             ytdHours := 0, mtdHours := 0,
             ytdAchievementPercent := achievementRatio 0 g.targetManHoursYTD,
             reportMonth := month }]
  | s :: ss => (s :: ss).map fun s' =>
      { department := g.department, targetManHoursYTD := g.targetManHoursYTD,
        ytdHours := s'.ytdHours, mtdHours := s'.mtdHours,
        ytdAchievementPercent := achievementRatio s'.ytdHours g.targetManHoursYTD,
        reportMonth := month }

/-- `df_kpi_report` in `dashboard.py`. -/
def kpiReport (goals : List GoalRow) (summary : List SummaryRow) (month : String) :
    List ReportRow :=
  goals.flatMap fun g =>
    leftMergeRow g (summary.filter (fun s => s.department == g.department)) month

/-- `run_etl_pipeline` of `dashboard.py` (lines 8-69): the in-memory
transform from the three input tables to the returned `df_kpi_report`. -/
def runEtlPipeline (i : Inputs) : List ReportRow :=
  kpiReport i.goals (kpiSummary i) (reportMonthStr TODAY)

end Dashboard

/-- Spec-side YTD window, following the glossary sentence of the spec:
from the start of the reference year through the reference date inclusive.
Stated for comparison with the code's calendar-year test. -/
def specYtdWindow (d : Date) : Bool :=
  Date.ble ⟨ProcessReport.TODAY.year, 1, 1⟩ d && Date.ble d ProcessReport.TODAY

/-- Total duration of training-log records whose course date falls in the
reference year. -/
def yearLogHours (i : Inputs) : ℚ :=
  ((i.log.filter (fun r => r.courseDate.year == ProcessReport.TODAY.year)).map
    (fun r => r.durationHours)).sum

/-- Total duration of reference-year records whose employee identifier has
no roster match (rows dropped from the sums through a null department). -/
def unmatchedYearLogHours (i : Inputs) : ℚ :=
  ((i.log.filter (fun r => r.courseDate.year == ProcessReport.TODAY.year &&
      (ProcessReport.rosterMatches i.roster r.employeeId).isEmpty)).map
    (fun r => r.durationHours)).sum

/-- Sum of the YTD_Hours column across the final report rows. -/
def reportYtdTotal (i : Inputs) : ℚ :=
  ((ProcessReport.processReport i).map (fun row => row.ytdHours)).sum

namespace ProcessReport

/-- The report row the pipeline produces for one goal row: targets copied
from the goal row, hours summed over the goal row's department (an absent
group sums to 0, which coincides with the zero fill). -/
def reportRowFor (i : Inputs) (g : GoalRow) : ReportRow :=
  { department := g.department, targetManHoursYTD := g.targetManHoursYTD,
    ytdHours := sumHoursFor (ytdData i) g.department,
    mtdHours := sumHoursFor (mtdData i) g.department,
    ytdAchievementPercent :=
      achievementRatio (sumHoursFor (ytdData i) g.department) g.targetManHoursYTD,
    reportMonth := reportMonthStr TODAY }

/-- Whether a merged row's department is one of the listed departments
(rows with a null department never qualify). -/
def deptIn (D : List String) (r : MergedRow) : Bool :=
  match r.department with
  | some d => D.contains d
  | none => false

/-- The single merged row a log record produces when roster identifiers are
unique: department of the unique match, or null when unmatched. -/
def mergeOne (roster : List RosterRow) (r : LogRow) : MergedRow :=
  match rosterMatches roster r.employeeId with
  | [] => { employeeId := r.employeeId, courseDate := r.courseDate,
            durationHours := r.durationHours, department := none }
  | e :: _ => { employeeId := r.employeeId, courseDate := r.courseDate,
                durationHours := r.durationHours, department := some e.department }

end ProcessReport

/-- The report row the spec's worked example expects. -/
def exampleRow : ReportRow :=
  ⟨"A", 100, 5, 5, some (1 / 20), "2025-10"⟩

/-- The worked example of the spec: employee E1 in department A, one 5-hour
record inside the reference month, department A's target 100. -/
def exampleInputs : Inputs :=
  ⟨[⟨"E1", "A"⟩], [⟨"E1", ⟨2025, 10, 10⟩, 5⟩], [⟨"A", 100⟩]⟩

/-- A run whose only training record is dated 2025-11-15, after the
reference date 2025-10-28 but inside calendar year 2025. -/
def lateRecordInputs : Inputs :=
  ⟨[⟨"E1", "A"⟩], [⟨"E1", ⟨2025, 11, 15⟩, 5⟩], [⟨"A", 100⟩]⟩

/-- A run with a matched 5-hour in-year record whose department has no goal
row (the goals table is empty). -/
def goallessDeptInputs : Inputs :=
  ⟨[⟨"E1", "A"⟩], [⟨"E1", ⟨2025, 5, 1⟩, 5⟩], []⟩

/-- A roster listing the same employee k times with the same department,
one in-month training record of h hours for that employee, one goal row. -/
def dupRosterInputs (k : Nat) (h : ℚ) : Inputs :=
  ⟨List.replicate k ⟨"E1", "A"⟩, [⟨"E1", ⟨2025, 10, 10⟩, h⟩], [⟨"A", 100⟩]⟩


/-! ## Structural lemmas about the pipeline -/

namespace ProcessReport

theorem flatMap_singleton_eq_map {α β : Type} (l : List α) (f : α → β) :
    (l.flatMap fun a => [f a]) = l.map f := by
  induction l with
  | nil => rfl
  | cons a t ih => simp [List.flatMap_cons, ih]

theorem filter_nodup_map (l : List String) (hl : l.Nodup) (f : String → SummaryRow)
    (hf : ∀ d, (f d).department = d) (c : String) :
    (l.map f).filter (fun s => s.department == c) = if c ∈ l then [f c] else [] := by
  induction l with
  | nil => simp
  | cons d t ih =>
    rcases List.nodup_cons.mp hl with ⟨hdt, ht⟩
    by_cases hc : d = c
    · subst hc
      have htail : (t.map f).filter (fun s => s.department == d) = [] := by
        rw [ih ht, if_neg hdt]
      simp [List.filter_cons, hf d, htail]
    · have : ((f d).department == c) = false := by
        rw [hf d]; exact beq_false_of_ne hc
      have hcd : ¬c = d := fun h => hc h.symm
      simp [List.filter_cons, this, ih ht, hcd]

theorem summary_filter (i : Inputs) (c : String) :
    (kpiSummary i).filter (fun s => s.department == c) =
      if c ∈ (groupDepts (ytdData i) ++ groupDepts (mtdData i)).dedup
      then [⟨c, sumHoursFor (ytdData i) c, sumHoursFor (mtdData i) c⟩] else [] := by
  unfold kpiSummary
  exact filter_nodup_map _ (List.nodup_dedup _) _ (fun d => rfl) c

theorem sumHoursFor_eq_zero (rows : List MergedRow) (c : String)
    (h : c ∉ groupDepts rows) : sumHoursFor rows c = 0 := by
  unfold sumHoursFor
  have hnil : rows.filter (fun r => r.department == some c) = [] := by
    rw [List.filter_eq_nil_iff]
    intro r hr hbeq
    apply h
    unfold groupDepts
    rw [List.mem_dedup]
    exact List.mem_filterMap.mpr ⟨r, hr, beq_iff_eq.mp hbeq⟩
  rw [hnil]
  rfl

theorem processReport_eq_map (i : Inputs) :
    processReport i = i.goals.map (reportRowFor i) := by
  unfold processReport kpiReport
  have h : ∀ g : GoalRow,
      leftMergeRow g ((kpiSummary i).filter (fun s => s.department == g.department))
          (reportMonthStr TODAY) = [reportRowFor i g] := by
    intro g
    rw [summary_filter]
    by_cases hc : g.department ∈ (groupDepts (ytdData i) ++ groupDepts (mtdData i)).dedup
    · rw [if_pos hc]
      rfl
    · rw [if_neg hc]
      have h1 : g.department ∉ groupDepts (ytdData i) := by
        intro hm
        exact hc (List.mem_dedup.mpr (List.mem_append.mpr (Or.inl hm)))
      have h2 : g.department ∉ groupDepts (mtdData i) := by
        intro hm
        exact hc (List.mem_dedup.mpr (List.mem_append.mpr (Or.inr hm)))
      unfold leftMergeRow reportRowFor
      rw [sumHoursFor_eq_zero _ _ h1, sumHoursFor_eq_zero _ _ h2]
  rw [funext h, flatMap_singleton_eq_map]

end ProcessReport

namespace ProcessReport

theorem sumHoursFor_cons (r : MergedRow) (R : List MergedRow) (d : String) :
    sumHoursFor (r :: R) d =
      (if r.department = some d then r.durationHours else 0) + sumHoursFor R d := by
  unfold sumHoursFor
  rw [List.filter_cons]
  by_cases h : r.department = some d
  · simp [h]
  · simp [h, beq_false_of_ne h]

theorem sum_map_add {α : Type} (l : List α) (f g : α → ℚ) :
    (l.map fun a => f a + g a).sum = (l.map f).sum + (l.map g).sum := by
  induction l with
  | nil => simp
  | cons a t ih =>
    simp only [List.map_cons, List.sum_cons, ih]
    ring

theorem deptIn_nil (r : MergedRow) : deptIn [] r = false := by
  unfold deptIn
  rcases r.department with _ | d <;> rfl

theorem deptIn_cons (d : String) (t : List String) (r : MergedRow) :
    deptIn (d :: t) r = ((r.department == some d) || deptIn t r) := by
  unfold deptIn
  rcases r.department with _ | d'
  · rfl
  · simp [List.contains_cons, beq_eq_decide]

theorem sum_ite_dept (D : List String) (hD : D.Nodup) (r : MergedRow) :
    (D.map fun d => if r.department = some d then r.durationHours else 0).sum =
      if deptIn D r then r.durationHours else 0 := by
  induction D with
  | nil => simp [deptIn_nil]
  | cons d t ih =>
    rcases List.nodup_cons.mp hD with ⟨hdt, ht⟩
    rw [List.map_cons, List.sum_cons, ih ht, deptIn_cons]
    by_cases h : r.department = some d
    · have htf : deptIn t r = false := by
        unfold deptIn
        rw [h]
        simp [hdt]
      simp [h, htf]
    · simp [h, beq_false_of_ne h]

theorem sum_depts_eq_filter (R : List MergedRow) (D : List String) (hD : D.Nodup) :
    (D.map (sumHoursFor R)).sum =
      ((R.filter (deptIn D)).map (fun r => r.durationHours)).sum := by
  induction R with
  | nil =>
    have hz : D.map (sumHoursFor []) = D.map fun _ => (0 : ℚ) :=
      List.map_congr_left fun d _ => rfl
    rw [hz]
    simp
  | cons r R' ih =>
    have hmap : D.map (sumHoursFor (r :: R')) =
        D.map fun d => (if r.department = some d then r.durationHours else 0) +
          sumHoursFor R' d :=
      List.map_congr_left fun d _ => sumHoursFor_cons r R' d
    rw [hmap, sum_map_add, sum_ite_dept D hD r, ih, List.filter_cons]
    by_cases h : deptIn D r
    · simp [h]
    · simp [h]

theorem sum_map_filter_split {α : Type} (l : List α) (p : α → Bool) (f : α → ℚ) :
    ((l.filter p).map f).sum + ((l.filter (fun a => !(p a))).map f).sum =
      (l.map f).sum := by
  induction l with
  | nil => simp
  | cons a t ih =>
    by_cases h : p a
    · simp only [List.filter_cons, h, if_pos, List.map_cons, List.sum_cons,
        Bool.not_true, Bool.false_eq_true, if_neg, ite_false, ite_true]
      rw [← ih]
      ring
    · have h' : p a = false := by simpa using h
      simp only [List.filter_cons, h', Bool.not_false, List.map_cons, List.sum_cons,
        Bool.false_eq_true, ite_false, ite_true]
      rw [← ih]
      ring

end ProcessReport

namespace ProcessReport

theorem rosterMatches_tail_nil (e : RosterRow) (t : List RosterRow)
    (het : e.employeeId ∉ t.map (fun a => a.employeeId)) :
    rosterMatches t e.employeeId = [] := by
  unfold rosterMatches
  rw [List.filter_eq_nil_iff]
  intro a ha hax
  exact het (List.mem_map.mpr ⟨a, ha, (beq_iff_eq.mp hax)⟩)

theorem rosterMatches_length_le (roster : List RosterRow)
    (hros : (roster.map (fun e => e.employeeId)).Nodup) (x : String) :
    (rosterMatches roster x).length ≤ 1 := by
  induction roster with
  | nil => simp [rosterMatches]
  | cons e t ih =>
    rw [List.map_cons, List.nodup_cons] at hros
    rcases hros with ⟨het, ht⟩
    unfold rosterMatches
    rw [List.filter_cons]
    by_cases h : e.employeeId == x
    · have hx : e.employeeId = x := beq_iff_eq.mp h
      have htn : t.filter (fun a => a.employeeId == x) = [] := by
        rw [← hx]
        exact rosterMatches_tail_nil e t het
      simp [h, htn]
    · have h' : (e.employeeId == x) = false := by simpa using h
      rw [h']
      exact ih ht

theorem mergeRow_eq_single (roster : List RosterRow)
    (hros : (roster.map (fun e => e.employeeId)).Nodup) (r : LogRow) :
    mergeRow r (rosterMatches roster r.employeeId) = [mergeOne roster r] := by
  have hlen := rosterMatches_length_le roster hros r.employeeId
  rcases hm : rosterMatches roster r.employeeId with _ | ⟨e, es⟩
  · unfold mergeRow mergeOne
    rw [hm]
  · have hes : es = [] := by
      rw [hm, List.length_cons] at hlen
      have hz : es.length = 0 := by omega
      exact List.length_eq_zero.mp hz
    subst hes
    unfold mergeRow mergeOne
    rw [hm]
    rfl

theorem mergeLogRoster_eq_map (log : List LogRow) (roster : List RosterRow)
    (hros : (roster.map (fun e => e.employeeId)).Nodup) :
    mergeLogRoster log roster = log.map (mergeOne roster) := by
  unfold mergeLogRoster
  have h : (fun r => mergeRow r (rosterMatches roster r.employeeId)) =
      fun r => [mergeOne roster r] :=
    funext fun r => mergeRow_eq_single roster hros r
  rw [h, flatMap_singleton_eq_map]

theorem mergeOne_courseDate (roster : List RosterRow) (r : LogRow) :
    (mergeOne roster r).courseDate = r.courseDate := by
  unfold mergeOne
  rcases rosterMatches roster r.employeeId with _ | ⟨e, es⟩ <;> rfl

theorem mergeOne_durationHours (roster : List RosterRow) (r : LogRow) :
    (mergeOne roster r).durationHours = r.durationHours := by
  unfold mergeOne
  rcases rosterMatches roster r.employeeId with _ | ⟨e, es⟩ <;> rfl

theorem mergeOne_department_isSome (roster : List RosterRow) (r : LogRow) :
    (mergeOne roster r).department.isSome =
      !(rosterMatches roster r.employeeId).isEmpty := by
  unfold mergeOne
  rcases rosterMatches roster r.employeeId with _ | ⟨e, es⟩ <;> rfl

theorem mem_merge_duration (log : List LogRow) (roster : List RosterRow)
    (r : MergedRow) (hr : r ∈ mergeLogRoster log roster) :
    ∃ l ∈ log, r.durationHours = l.durationHours := by
  unfold mergeLogRoster at hr
  rw [List.mem_flatMap] at hr
  obtain ⟨a, ha, hra⟩ := hr
  refine ⟨a, ha, ?_⟩
  unfold mergeRow at hra
  rcases hm : rosterMatches roster a.employeeId with _ | ⟨e, es⟩ <;> rw [hm] at hra
  · rw [List.mem_singleton] at hra
    rw [hra]
  · rw [List.mem_map] at hra
    obtain ⟨m, _, hr2⟩ := hra
    rw [← hr2]

end ProcessReport

/-! ## Evaluation helpers for the concrete inputs -/

open ProcessReport in
theorem exampleInputs_eval : ProcessReport.processReport exampleInputs = [exampleRow] := by
  norm_num [processReport, kpiReport, kpiSummary, ytdData, mtdData, mergeLogRoster,
    mergeRow, rosterMatches, isThisYear, isThisMonth, sumHoursFor, groupDepts,
    leftMergeRow, achievementRatio, reportMonthStr, monthStr, TODAY, exampleInputs,
    exampleRow, List.filter, List.dedup, List.flatMap]
  rfl

open ProcessReport in
theorem exampleInputs_ytdData_eval :
    ProcessReport.ytdData exampleInputs = [⟨"E1", ⟨2025, 10, 10⟩, 5, some "A"⟩] := by
  norm_num [ytdData, mergeLogRoster, mergeRow, rosterMatches, isThisYear, TODAY,
    exampleInputs, List.filter, List.flatMap]

/-! ## Claim theorems -/

/-- C6: on the spec's worked example (roster E1 in department A, one 5-hour
record for E1 dated inside the reference month, goal row A with target 100)
the pipeline produces exactly one row: department A, YTD 5, MTD 5, target
100, achievement ratio 0.05. -/
theorem c6_worked_example :
    ProcessReport.processReport exampleInputs =
      [{ department := "A", targetManHoursYTD := 100, ytdHours := 5, mtdHours := 5,
         ytdAchievementPercent := some (1 / 20), reportMonth := "2025-10" }] := by
  rw [exampleInputs_eval]
  rfl

/-- C9: for every set of input tables, the batch transform of
`process_report.py` and the dashboard's in-memory `run_etl_pipeline` compute
identical KPI report rows. -/
theorem c9_batch_dashboard_equal (i : Inputs) :
    ProcessReport.processReport i = Dashboard.runEtlPipeline i := rfl

/-- C7: running the transformation twice with the same inputs and reference
date yields identical computed report rows; the only cross-run difference is
that the history table gains a second, duplicate copy of the rows. -/
theorem c7_rerun_deterministic (i : Inputs) (history : List ReportRow) :
    (ProcessReport.runBatchOnce i history).1 =
      (ProcessReport.runBatchOnce i (ProcessReport.runBatchOnce i history).2).1 ∧
    (ProcessReport.runBatchOnce i (ProcessReport.runBatchOnce i history).2).2 =
      history ++ ProcessReport.processReport i ++ ProcessReport.processReport i := by
  constructor
  · rfl
  · simp [ProcessReport.runBatchOnce]

/-- C8: if any of the three input files is absent or unreadable, the batch
run reports an error, exits with status 1, writes no spreadsheet and appends
nothing to the history table. -/
theorem c8_missing_input_no_partial_output (fs : ProcessReport.FileSystem)
    (h : fs.roster = none ∨ fs.log = none ∨ fs.goals = none) :
    (ProcessReport.mainRun fs).exitCode = 1 ∧
    (ProcessReport.mainRun fs).errorReported = true ∧
    (ProcessReport.mainRun fs).excelWritten = none ∧
    (ProcessReport.mainRun fs).historyAppended = [] := by
  obtain ⟨r, l, g⟩ := fs
  rcases r with _ | r <;> rcases l with _ | l <;> rcases g with _ | g <;>
    simp_all [ProcessReport.mainRun]

theorem c8_missing_input_no_partial_output_witness :
    (ProcessReport.mainRun ⟨none, some [], some []⟩).exitCode = 1 ∧
    (ProcessReport.mainRun ⟨none, some [], some []⟩).errorReported = true ∧
    (ProcessReport.mainRun ⟨none, some [], some []⟩).excelWritten = none ∧
    (ProcessReport.mainRun ⟨none, some [], some []⟩).historyAppended = [] :=
  c8_missing_input_no_partial_output ⟨none, some [], some []⟩ (Or.inl rfl)

/-- C4: in every output row, when the target is strictly positive the
achievement column is the exact quotient YTD hours / target; when the target
is 0 the column holds the non-finite division result (modelled `none`),
with no special-casing. -/
theorem c4_achievement_ratio (i : Inputs) (row : ReportRow)
    (hrow : row ∈ ProcessReport.processReport i) :
    (0 < row.targetManHoursYTD →
        row.ytdAchievementPercent = some (row.ytdHours / row.targetManHoursYTD)) ∧
    (row.targetManHoursYTD = 0 → row.ytdAchievementPercent = none) := by
  rw [ProcessReport.processReport_eq_map] at hrow
  obtain ⟨g, hg, rfl⟩ := List.mem_map.mp hrow
  constructor
  · intro hpos
    have hne : g.targetManHoursYTD ≠ 0 := ne_of_gt hpos
    simp [ProcessReport.reportRowFor, ProcessReport.achievementRatio, hne]
  · intro hz
    simp [ProcessReport.reportRowFor, ProcessReport.achievementRatio] at hz ⊢
    simp [hz]

theorem c4_achievement_ratio_witness :
    (0 < exampleRow.targetManHoursYTD →
        exampleRow.ytdAchievementPercent =
          some (exampleRow.ytdHours / exampleRow.targetManHoursYTD)) ∧
    (exampleRow.targetManHoursYTD = 0 → exampleRow.ytdAchievementPercent = none) :=
  c4_achievement_ratio exampleInputs exampleRow
    (by rw [exampleInputs_eval]; exact List.mem_singleton.mpr rfl)

/-- C3, counterexample: a 5-hour record dated 2025-11-15 lies after the
reference date 2025-10-28 (outside the claimed start-of-year-to-reference
window), yet the pipeline counts its full 5 hours in the department's
YTD sum, so the claimed window does not govern YTD membership. -/
theorem c3_counterexample_late_record :
    ((ProcessReport.processReport lateRecordInputs).map (fun row => row.ytdHours) =
        [5]) ∧
    (lateRecordInputs.log.filter (fun r => specYtdWindow r.courseDate) = []) := by
  constructor
  · norm_num [ProcessReport.processReport, ProcessReport.kpiReport,
      ProcessReport.kpiSummary, ProcessReport.ytdData, ProcessReport.mtdData,
      ProcessReport.mergeLogRoster, ProcessReport.mergeRow,
      ProcessReport.rosterMatches, ProcessReport.isThisYear,
      ProcessReport.isThisMonth, ProcessReport.sumHoursFor,
      ProcessReport.groupDepts, ProcessReport.leftMergeRow,
      ProcessReport.achievementRatio, ProcessReport.reportMonthStr,
      ProcessReport.monthStr, ProcessReport.TODAY, lateRecordInputs,
      List.filter, List.dedup, List.flatMap]
  · decide

/-- C3, amended: a merged training record belongs to the YTD partition iff
its course date's calendar year equals the reference year — the comparison
is on the year component only, so records dated after the reference date but
inside the same calendar year still count toward YTD. -/
theorem c3_ytd_membership_amended (i : Inputs) (r : MergedRow) :
    r ∈ ProcessReport.ytdData i ↔
      r ∈ ProcessReport.mergeLogRoster i.log i.roster ∧
        r.courseDate.year = ProcessReport.TODAY.year := by
  unfold ProcessReport.ytdData
  rw [List.mem_filter]
  simp [ProcessReport.isThisYear]

/-- C1: under the data model's unique-department key on the goals table,
the output's department column equals the goals table's department column
(so each goal department appears exactly once, in order), departments
without a goal row never appear, and a goal department with no merged
training records gets zero-filled YTD and MTD hours. -/
theorem c1_report_departments_match_goals (i : Inputs)
    (hg : (i.goals.map (fun g => g.department)).Nodup) :
    ((ProcessReport.processReport i).map (fun row => row.department) =
        i.goals.map (fun g => g.department)) ∧
    (∀ d ∈ i.goals.map (fun g => g.department),
        ((ProcessReport.processReport i).map (fun row => row.department)).count d = 1) ∧
    (∀ d, d ∉ i.goals.map (fun g => g.department) →
        ∀ row ∈ ProcessReport.processReport i, row.department ≠ d) ∧
    (∀ row ∈ ProcessReport.processReport i,
        (∀ r ∈ ProcessReport.mergeLogRoster i.log i.roster,
            r.department ≠ some row.department) →
        row.ytdHours = 0 ∧ row.mtdHours = 0) := by
  have hmap : (ProcessReport.processReport i).map (fun row => row.department) =
      i.goals.map (fun g => g.department) := by
    rw [ProcessReport.processReport_eq_map, List.map_map]
    exact List.map_congr_left fun g _ => rfl
  refine ⟨hmap, ?_, ?_, ?_⟩
  · intro d hd
    rw [hmap]
    exact List.count_eq_one_of_mem hg hd
  · intro d hd row hrow hrd
    apply hd
    rw [← hmap]
    exact List.mem_map.mpr ⟨row, hrow, hrd⟩
  · intro row hrow hnone
    rw [ProcessReport.processReport_eq_map] at hrow
    obtain ⟨g, hgmem, rfl⟩ := List.mem_map.mp hrow
    have hyd : g.department ∉ ProcessReport.groupDepts (ProcessReport.ytdData i) := by
      intro hmem
      unfold ProcessReport.groupDepts at hmem
      rw [List.mem_dedup, List.mem_filterMap] at hmem
      obtain ⟨r, hr, hrd⟩ := hmem
      exact hnone r (List.mem_of_mem_filter hr) hrd
    have hmd : g.department ∉ ProcessReport.groupDepts (ProcessReport.mtdData i) := by
      intro hmem
      unfold ProcessReport.groupDepts at hmem
      rw [List.mem_dedup, List.mem_filterMap] at hmem
      obtain ⟨r, hr, hrd⟩ := hmem
      exact hnone r (List.mem_of_mem_filter hr) hrd
    exact ⟨ProcessReport.sumHoursFor_eq_zero _ _ hyd,
      ProcessReport.sumHoursFor_eq_zero _ _ hmd⟩

theorem c1_report_departments_match_goals_witness :
    ((ProcessReport.processReport exampleInputs).map (fun row => row.department) =
        exampleInputs.goals.map (fun g => g.department)) ∧
    (∀ d ∈ exampleInputs.goals.map (fun g => g.department),
        ((ProcessReport.processReport exampleInputs).map
          (fun row => row.department)).count d = 1) ∧
    (∀ d, d ∉ exampleInputs.goals.map (fun g => g.department) →
        ∀ row ∈ ProcessReport.processReport exampleInputs, row.department ≠ d) ∧
    (∀ row ∈ ProcessReport.processReport exampleInputs,
        (∀ r ∈ ProcessReport.mergeLogRoster exampleInputs.log exampleInputs.roster,
            r.department ≠ some row.department) →
        row.ytdHours = 0 ∧ row.mtdHours = 0) :=
  c1_report_departments_match_goals exampleInputs (by decide)

/-- C5: every record of the MTD partition is also in the YTD partition
(the MTD filter conjoins the YTD filter), and consequently, when all logged
durations are non-negative, MTD hours never exceed YTD hours in any output
row. -/
theorem c5_mtd_subset_ytd (i : Inputs)
    (hpos : ∀ r ∈ i.log, 0 ≤ r.durationHours) :
    (∀ r ∈ ProcessReport.mtdData i, r ∈ ProcessReport.ytdData i) ∧
    (∀ row ∈ ProcessReport.processReport i, row.mtdHours ≤ row.ytdHours) := by
  have hsub : (ProcessReport.mtdData i).Sublist (ProcessReport.ytdData i) := by
    unfold ProcessReport.mtdData ProcessReport.ytdData
    have h1 : (ProcessReport.mergeLogRoster i.log i.roster).filter
        (fun r => ProcessReport.isThisYear r && ProcessReport.isThisMonth r) =
        ((ProcessReport.mergeLogRoster i.log i.roster).filter
          ProcessReport.isThisYear).filter ProcessReport.isThisMonth := by
      rw [List.filter_filter]
      exact List.filter_congr fun r _ => Bool.and_comm _ _
    rw [h1]
    exact List.filter_sublist _
  constructor
  · intro r hr
    exact hsub.mem hr
  · intro row hrow
    rw [ProcessReport.processReport_eq_map] at hrow
    obtain ⟨g, hgmem, rfl⟩ := List.mem_map.mp hrow
    show ProcessReport.sumHoursFor (ProcessReport.mtdData i) g.department ≤
      ProcessReport.sumHoursFor (ProcessReport.ytdData i) g.department
    have hsub2 := (hsub.filter
        (fun r => r.department == some g.department)).map
      (fun r => r.durationHours)
    apply List.Sublist.sum_le_sum hsub2
    intro q hq
    rw [List.mem_map] at hq
    obtain ⟨r, hr, rfl⟩ := hq
    have hry : r ∈ ProcessReport.ytdData i := List.mem_of_mem_filter hr
    have hrm : r ∈ ProcessReport.mergeLogRoster i.log i.roster := by
      unfold ProcessReport.ytdData at hry
      exact List.mem_of_mem_filter hry
    obtain ⟨l, hl, hdur⟩ := ProcessReport.mem_merge_duration _ _ r hrm
    rw [hdur]
    exact hpos l hl

theorem c5_mtd_subset_ytd_witness :
    (∀ r ∈ ProcessReport.mtdData exampleInputs,
        r ∈ ProcessReport.ytdData exampleInputs) ∧
    (∀ row ∈ ProcessReport.processReport exampleInputs,
        row.mtdHours ≤ row.ytdHours) :=
  c5_mtd_subset_ytd exampleInputs (by decide)

theorem filter_replicate_true {α : Type} (n : Nat) (a : α) (p : α → Bool)
    (hp : p a = true) : (List.replicate n a).filter p = List.replicate n a := by
  induction n with
  | zero => rfl
  | succ m ih =>
    rw [List.replicate_succ, List.filter_cons, hp]
    simp [ih]

/-- C10: when the roster lists the same employee identifier k ≥ 1 times
(even with the same department), the left join matches each of that
employee's training records k times, and the record's duration is counted
k times in the department's YTD sum. -/
theorem c10_duplicate_roster_multiplies (k : Nat) (h : ℚ) (hk : 1 ≤ k) :
    (ProcessReport.mergeLogRoster (dupRosterInputs k h).log
        (dupRosterInputs k h).roster).length = k ∧
    (ProcessReport.processReport (dupRosterInputs k h)).map
        (fun row => row.ytdHours) = [(k : ℚ) * h] := by
  obtain ⟨j, rfl⟩ : ∃ j, k = j + 1 := ⟨k - 1, by omega⟩
  have hros : ProcessReport.rosterMatches (dupRosterInputs (j + 1) h).roster "E1" =
      List.replicate (j + 1) ⟨"E1", "A"⟩ := by
    unfold ProcessReport.rosterMatches dupRosterInputs
    exact filter_replicate_true _ _ _ rfl
  have hmerged : ProcessReport.mergeLogRoster (dupRosterInputs (j + 1) h).log
      (dupRosterInputs (j + 1) h).roster =
      List.replicate (j + 1) ⟨"E1", ⟨2025, 10, 10⟩, h, some "A"⟩ := by
    unfold ProcessReport.mergeLogRoster
    show ProcessReport.mergeRow ⟨"E1", ⟨2025, 10, 10⟩, h⟩
        (ProcessReport.rosterMatches (dupRosterInputs (j + 1) h).roster "E1") ++
        [] = _
    rw [hros, List.append_nil, List.replicate_succ]
    show (((⟨"E1", "A"⟩ : RosterRow) :: List.replicate j ⟨"E1", "A"⟩).map fun m =>
        ({ employeeId := "E1", courseDate := ⟨2025, 10, 10⟩, durationHours := h,
           department := some m.department } : MergedRow)) = _
    rw [List.map_cons, List.map_replicate, List.replicate_succ]
  have hytd : ProcessReport.ytdData (dupRosterInputs (j + 1) h) =
      List.replicate (j + 1) ⟨"E1", ⟨2025, 10, 10⟩, h, some "A"⟩ := by
    unfold ProcessReport.ytdData
    rw [hmerged]
    exact filter_replicate_true _ _ _ rfl
  constructor
  · rw [hmerged, List.length_replicate]
  · rw [ProcessReport.processReport_eq_map]
    show [ProcessReport.sumHoursFor (ProcessReport.ytdData (dupRosterInputs (j + 1) h))
        "A"] = _
    rw [hytd]
    unfold ProcessReport.sumHoursFor
    rw [filter_replicate_true _ _ _ rfl, List.map_replicate, List.sum_replicate,
      nsmul_eq_mul]

theorem c10_duplicate_roster_multiplies_witness :
    (ProcessReport.mergeLogRoster (dupRosterInputs 2 5).log
        (dupRosterInputs 2 5).roster).length = 2 ∧
    (ProcessReport.processReport (dupRosterInputs 2 5)).map
        (fun row => row.ytdHours) = [(2 : ℚ) * 5] :=
  c10_duplicate_roster_multiplies 2 5 (by decide)

/-- C2, counterexample: with a matched in-year 5-hour record for department
A and an empty goals table, the output YTD total is 0, while the claimed
value (in-year hours minus unmatched-employee hours) is 5: hours of records
whose department has no goal row are also dropped, so the subtraction is
not "only" the unmatched-employee hours. -/
theorem c2_counterexample_goalless_department :
    reportYtdTotal goallessDeptInputs ≠
      yearLogHours goallessDeptInputs - unmatchedYearLogHours goallessDeptInputs := by
  have h1 : reportYtdTotal goallessDeptInputs = 0 := by
    norm_num [reportYtdTotal, ProcessReport.processReport, ProcessReport.kpiReport,
      ProcessReport.kpiSummary, ProcessReport.ytdData, ProcessReport.mtdData,
      ProcessReport.mergeLogRoster, ProcessReport.mergeRow,
      ProcessReport.rosterMatches, ProcessReport.isThisYear,
      ProcessReport.isThisMonth, ProcessReport.sumHoursFor,
      ProcessReport.groupDepts, ProcessReport.leftMergeRow,
      ProcessReport.achievementRatio, ProcessReport.reportMonthStr,
      ProcessReport.monthStr, ProcessReport.TODAY, goallessDeptInputs,
      List.filter, List.dedup, List.flatMap]
  have h2 : yearLogHours goallessDeptInputs -
      unmatchedYearLogHours goallessDeptInputs = 5 := by
    norm_num [yearLogHours, unmatchedYearLogHours, ProcessReport.rosterMatches,
      ProcessReport.TODAY, goallessDeptInputs, List.filter]
  rw [h1, h2]
  norm_num

/-- C2, amended: under the data model's unique keys (employee identifier in
the roster, department in the goals table) and provided every department
carrying an in-year record appears in the goals table, the output YTD total
equals the in-year log hours minus the unmatched-employee hours; without the
coverage proviso, hours of departments lacking a goal row are dropped too. -/
theorem c2_ytd_total_amended (i : Inputs)
    (hros : (i.roster.map (fun e => e.employeeId)).Nodup)
    (hg : (i.goals.map (fun g => g.department)).Nodup)
    (hcov : ∀ r ∈ ProcessReport.ytdData i, ∀ d, r.department = some d →
        d ∈ i.goals.map (fun g => g.department)) :
    reportYtdTotal i = yearLogHours i - unmatchedYearLogHours i := by
  have hA : reportYtdTotal i =
      ((i.goals.map (fun g => g.department)).map
        (ProcessReport.sumHoursFor (ProcessReport.ytdData i))).sum := by
    unfold reportYtdTotal
    rw [ProcessReport.processReport_eq_map, List.map_map, List.map_map]
    rfl
  have hB : ((i.goals.map (fun g => g.department)).map
      (ProcessReport.sumHoursFor (ProcessReport.ytdData i))).sum =
      (((ProcessReport.ytdData i).filter
        (ProcessReport.deptIn (i.goals.map (fun g => g.department)))).map
        (fun r => r.durationHours)).sum :=
    ProcessReport.sum_depts_eq_filter _ _ hg
  have hC : (ProcessReport.ytdData i).filter
      (ProcessReport.deptIn (i.goals.map (fun g => g.department))) =
      (ProcessReport.ytdData i).filter (fun r => r.department.isSome) := by
    apply List.filter_congr
    intro r hr
    rcases hdep : r.department with _ | d
    · unfold ProcessReport.deptIn
      rw [hdep]
      rfl
    · unfold ProcessReport.deptIn
      rw [hdep]
      have hd := hcov r hr d hdep
      simp [hd]
  have hD : ProcessReport.ytdData i =
      (i.log.filter (fun l => l.courseDate.year == ProcessReport.TODAY.year)).map
        (ProcessReport.mergeOne i.roster) := by
    unfold ProcessReport.ytdData
    rw [ProcessReport.mergeLogRoster_eq_map i.log i.roster hros, List.filter_map]
    congr 1
    apply List.filter_congr
    intro l _
    show ProcessReport.isThisYear (ProcessReport.mergeOne i.roster l) =
      (l.courseDate.year == ProcessReport.TODAY.year)
    unfold ProcessReport.isThisYear
    rw [ProcessReport.mergeOne_courseDate]
  have hE : ((ProcessReport.ytdData i).filter (fun r => r.department.isSome)).map
      (fun r => r.durationHours) =
      (((i.log.filter (fun l => l.courseDate.year == ProcessReport.TODAY.year)).filter
        (fun l => !(ProcessReport.rosterMatches i.roster l.employeeId).isEmpty)).map
        (ProcessReport.mergeOne i.roster)).map (fun r => r.durationHours) := by
    rw [hD, List.filter_map]
    congr 2
    apply List.filter_congr
    intro l _
    show (ProcessReport.mergeOne i.roster l).department.isSome =
      !(ProcessReport.rosterMatches i.roster l.employeeId).isEmpty
    rw [ProcessReport.mergeOne_department_isSome]
  have hF : (((i.log.filter
      (fun l => l.courseDate.year == ProcessReport.TODAY.year)).filter
      (fun l => !(ProcessReport.rosterMatches i.roster l.employeeId).isEmpty)).map
      (ProcessReport.mergeOne i.roster)).map (fun r => r.durationHours) =
      ((i.log.filter (fun l => l.courseDate.year == ProcessReport.TODAY.year)).filter
        (fun l => !(ProcessReport.rosterMatches i.roster l.employeeId).isEmpty)).map
        (fun l => l.durationHours) := by
    rw [List.map_map]
    apply List.map_congr_left
    intro l _
    exact ProcessReport.mergeOne_durationHours i.roster l
  have hsplit : (((i.log.filter
      (fun l => l.courseDate.year == ProcessReport.TODAY.year)).filter
      (fun l => (ProcessReport.rosterMatches i.roster l.employeeId).isEmpty)).map
      (fun l => l.durationHours)).sum +
      (((i.log.filter (fun l => l.courseDate.year == ProcessReport.TODAY.year)).filter
        (fun l => !(ProcessReport.rosterMatches i.roster l.employeeId).isEmpty)).map
        (fun l => l.durationHours)).sum =
      ((i.log.filter (fun l => l.courseDate.year == ProcessReport.TODAY.year)).map
        (fun l => l.durationHours)).sum :=
    ProcessReport.sum_map_filter_split _ _ _
  have hunm : (((i.log.filter
      (fun l => l.courseDate.year == ProcessReport.TODAY.year)).filter
      (fun l => (ProcessReport.rosterMatches i.roster l.employeeId).isEmpty)).map
      (fun l => l.durationHours)).sum = unmatchedYearLogHours i := by
    unfold unmatchedYearLogHours
    have hff : (i.log.filter
        (fun l => l.courseDate.year == ProcessReport.TODAY.year)).filter
        (fun l => (ProcessReport.rosterMatches i.roster l.employeeId).isEmpty) =
        i.log.filter (fun r => r.courseDate.year == ProcessReport.TODAY.year &&
          (ProcessReport.rosterMatches i.roster r.employeeId).isEmpty) := by
      rw [List.filter_filter]
      exact List.filter_congr fun r _ => Bool.and_comm _ _
    rw [hff]
  have hy : yearLogHours i =
      ((i.log.filter (fun l => l.courseDate.year == ProcessReport.TODAY.year)).map
        (fun l => l.durationHours)).sum := rfl
  rw [hA, hB, hC, hE, hF]
  linarith [hsplit, hunm, hy]

theorem c2_ytd_total_amended_witness :
    reportYtdTotal exampleInputs =
      yearLogHours exampleInputs - unmatchedYearLogHours exampleInputs :=
  c2_ytd_total_amended exampleInputs (by decide) (by decide) (by
    intro r hr d hd
    rw [exampleInputs_ytdData_eval] at hr
    rw [List.mem_singleton] at hr
    subst hr
    rw [Option.some_inj.mp hd.symm]
    decide)
